import Mathlib

/-!
Verification development for the poc-withdraw-api repository.

The definitions below are a shallow embedding of the Go source:
  * `internal/repository/withdraw.balance.go` plus the sqlc SQL queries
    (wallet conditional update, existence check, ledger insert),
  * `internal/shared/idempotency/sqlx_store.go` (Acquire / Complete),
  * `internal/middlewares` (withdraw idempotency middleware, rate-limit
    middleware, request-hash canonicalisation),
  * `internal/shared/ratelimit/redis_store.go` (fixed-window Lua script),
  * `internal/app/app.ratelimit.go` and `internal/shared/hash/hash.go`
    (algorithm selection by configuration string),
  * `internal/handlers/withdraw.balance.go` and the withdraw service.

Go `int64` values are modelled as `Int` (no arithmetic here approaches the
64-bit range), instants and durations as `Int` (nanoseconds for the
idempotency store, matching `time.Duration`; milliseconds for the Redis
rate-limit scripts, matching `UnixMilli`/`PTTL`). Byte slices are modelled
as `String`. SQL transactions are modelled by mutating a snapshot that is
installed only on commit; injectable fault flags stand for the Go error
returns of Begin/Exec/Commit.
-/

namespace WithdrawAPI

/-! ## String primitives

Executable models of the Go standard-library string helpers used by the
embedded code (`strings.TrimSpace`, `strings.ToUpper`, `strings.ToLower`),
written over the character list so that they evaluate inside the kernel. -/

/-- `strings.TrimSpace`: drop leading and trailing whitespace. -/
def trimSpace (s : String) : String :=
  ⟨((s.data.dropWhile Char.isWhitespace).reverse.dropWhile
      Char.isWhitespace).reverse⟩

/-- `strings.ToUpper` (ASCII case mapping suffices here). -/
def toUpperStr (s : String) : String :=
  ⟨s.data.map Char.toUpper⟩

/-- `strings.ToLower` (ASCII case mapping suffices here). -/
def toLowerStr (s : String) : String :=
  ⟨s.data.map Char.toLower⟩

/-! ## Wallet data model (tables `wallets`, `wallet_ledger`) -/

/-- A row of the `wallets` table. `userId` holds the canonical
(lower-case, hyphenated) text of the `user_id` uuid column. -/
structure Wallet where
  walletId : Nat
  userId : String
  balanceMinor : Int
  currency : String
  version : Int
  updatedAt : Int
  deriving Repr, DecidableEq

/-- A row of the append-only `wallet_ledger` table. -/
structure LedgerEntry where
  walletId : Nat
  entryType : String
  amountMinor : Int
  balanceAfterMinor : Int
  referenceId : Option String
  chainId : Option String
  createdAt : Int
  deriving Repr, DecidableEq

/-- The relational state owned by the balance ledger store. -/
structure WalletDB where
  wallets : List Wallet
  ledger : List LedgerEntry
  deriving Repr, DecidableEq

/-- `domain.WalletBalance` (the RETURNING row surfaced by the repository). -/
structure WalletBalance where
  userId : String
  balanceMinor : Int
  currency : String
  updatedAt : Int
  deriving Repr, DecidableEq

/-! ## uuid parsing

`github.com/google/uuid`.Parse, restricted to the 36-character hyphenated
form and the 32-character plain-hex form (the library also accepts `urn:`
and braced forms, which never occur for this service's JWT-issued user
ids). The result is the canonical lower-case hyphenated text, which is how
the uuid column compares in the database. -/

def isHexDigit (c : Char) : Bool :=
  ('0' ≤ c && c ≤ '9') || ('a' ≤ c && c ≤ 'f') || ('A' ≤ c && c ≤ 'F')

def uuidHyphenAt (i : Nat) : Bool :=
  i == 8 || i == 13 || i == 18 || i == 23

def uuidParse (s : String) : Option String :=
  let cs := s.toList
  if cs.length = 36 then
    if (List.range 36).all (fun i =>
        if uuidHyphenAt i then cs.getD i ' ' == '-'
        else isHexDigit (cs.getD i ' ')) then
      some (String.mk (cs.map Char.toLower))
    else none
  else if cs.length = 32 then
    if cs.all isHexDigit then
      let l := cs.map Char.toLower
      some (String.mk
        (l.take 8 ++ '-' :: (l.drop 8).take 4 ++ '-' :: (l.drop 12).take 4
          ++ '-' :: (l.drop 16).take 4 ++ '-' :: l.drop 20))
    else none
  else none

/-! ## The conditional debit statement (sqlc `WithdrawWalletBalanceByUserID`)

```
UPDATE wallets
SET balance_minor = balance_minor - $amount, version = version + 1,
    updated_at = now()
WHERE user_id = $user AND balance_minor >= $amount
RETURNING wallet_id, user_id, balance_minor, currency, updated_at
```
The WHERE clause below (`withdrawGuard`) is the sole arbiter of the
non-negative-balance invariant: the debit (`debit`) is applied exactly to
the rows the guard selects, inside the same statement. -/

def withdrawGuard (uid : String) (amountMinor : Int) (w : Wallet) : Bool :=
  w.userId == uid && amountMinor ≤ w.balanceMinor

def debit (amountMinor : Int) (now : Int) (w : Wallet) : Wallet :=
  { w with balanceMinor := w.balanceMinor - amountMinor,
           version := w.version + 1,
           updatedAt := now }

/-- The single UPDATE: new table contents plus the RETURNING row (sqlc
`:one` surfaces the unique matching row; `none` models `sql.ErrNoRows`). -/
def withdrawWalletUpdate (wallets : List Wallet) (uid : String)
    (amountMinor : Int) (now : Int) : List Wallet × Option Wallet :=
  (wallets.map (fun w => if withdrawGuard uid amountMinor w
                         then debit amountMinor now w else w),
   (wallets.find? (withdrawGuard uid amountMinor)).map (debit amountMinor now))

/-- sqlc `HasWalletByUserID`: `SELECT EXISTS (... WHERE user_id = $1)`. -/
def hasWalletByUserID (wallets : List Wallet) (uid : String) : Bool :=
  wallets.any (fun w => w.userId == uid)

/-! ## Repository: `WithdrawWalletBalanceByUserID` -/

/-- Failure taxonomy of the withdraw path (`vo` errors plus the wrapped
infrastructure errors the repository returns as `fmt.Errorf` values). -/
inductive WithdrawErr where
  | invalidUserID
  | invalidAmount
  | walletNotFound
  | insufficientBalance
  | txFailure (msg : String)
  deriving Repr, DecidableEq

/-- Injectable faults standing for Go error returns of the database calls
inside the repository transaction. -/
structure DBFaults where
  beginFail : Bool := false
  updateFail : Bool := false
  existsFail : Bool := false
  insertFail : Bool := false
  commitFail : Bool := false
  deriving Repr, DecidableEq

def noFaults : DBFaults := {}

/-- Outcome of one repository call: the returned value or error, the
database state after the call (rollback restores the original), and
whether a transaction was begun. -/
structure WithdrawOutcome where
  result : Except WithdrawErr WalletBalance
  db : WalletDB
  txBegan : Bool
  deriving Repr

/-- `(*WithdrawBalanceRepository).WithdrawWalletBalanceByUserID`:
parse the user id, validate the amount, then run the single-transaction
conditional debit + ledger insert, distinguishing wallet-absent from
insufficient-funds via the secondary existence check. -/
def WithdrawWalletBalanceByUserID (f : DBFaults) (db : WalletDB) (now : Int)
    (userID : String) (amountMinor : Int) (chainID : String) : WithdrawOutcome :=
  match uuidParse userID with
  | none => ⟨.error .invalidUserID, db, false⟩
  | some uid =>
    if amountMinor ≤ 0 then ⟨.error .invalidAmount, db, false⟩
    else if f.beginFail then
      ⟨.error (.txFailure "failed to start transaction"), db, false⟩
    else if f.updateFail then
      ⟨.error (.txFailure "failed to withdraw wallet balance"), db, true⟩
    else
      let upd := withdrawWalletUpdate db.wallets uid amountMinor now
      match upd.2 with
      | none =>
        if f.existsFail then
          ⟨.error (.txFailure "failed to check wallet existence"), db, true⟩
        else if hasWalletByUserID db.wallets uid then
          ⟨.error .insufficientBalance, db, true⟩
        else ⟨.error .walletNotFound, db, true⟩
      | some row =>
        if f.insertFail then
          ⟨.error (.txFailure "failed to insert wallet ledger"), db, true⟩
        else if f.commitFail then
          ⟨.error (.txFailure "failed to commit transaction"), db, true⟩
        else
          ⟨.ok ⟨row.userId, row.balanceMinor, row.currency, row.updatedAt⟩,
           ⟨upd.1,
            db.ledger ++
              [⟨row.walletId, "withdrawal", -amountMinor, row.balanceMinor,
                none, if chainID ≠ "" then some chainID else none, now⟩]⟩,
           true⟩

/-! ## Idempotency store (`internal/shared/idempotency`)

Table `withdraw_idempotency` (unique on `(scope, idempotency_key)`), and
the `SQLXStore.Acquire` / `SQLXStore.Complete` operations. Instants and
durations are `Int` nanoseconds, matching `time.Time` / `time.Duration`. -/

/-- A row of `withdraw_idempotency`. Nullable columns are `Option`. -/
structure IdemRow where
  scope : String
  key : String
  requestHash : String
  status : String
  responseStatus : Option Int
  responseBody : String
  responseType : Option String
  lockedUntil : Int
  createdAt : Int
  updatedAt : Int
  completedAt : Option Int
  deriving Repr, DecidableEq

inductive DecisionType where
  | acquired
  | replay
  | inProgress
  | conflict
  deriving Repr, DecidableEq

/-- `idempotency.Decision`: zero values match the Go struct defaults. -/
structure Decision where
  type : DecisionType
  statusCode : Int := 0
  body : String := ""
  contentType : String := ""
  deriving Repr, DecidableEq

/-- `idempotency.Request`. `lockTTL` is nanoseconds (`time.Duration`). -/
structure IdemRequest where
  scope : String
  key : String
  requestHash : String
  lockTTL : Int := 0
  deriving Repr, DecidableEq

/-- `idempotency.StoredResponse`. -/
structure StoredResponse where
  statusCode : Int
  body : String
  contentType : String
  deriving Repr, DecidableEq

/-- `defaultLockTTL = 30 * time.Second` in nanoseconds. -/
def defaultLockTTL : Int := 30 * 1000000000

/-- `SELECT ... FROM withdraw_idempotency WHERE scope = $1 AND
idempotency_key = $2 FOR UPDATE` (the index is unique on the pair). -/
def findIdemRow (db : List IdemRow) (scope key : String) : Option IdemRow :=
  db.find? (fun r => r.scope == scope && r.key == key)

/-- The row inserted by the fresh-acquisition INSERT. -/
def freshIdemRow (scope key hash : String) (now lockUntil : Int) : IdemRow :=
  { scope := scope, key := key, requestHash := hash, status := "in_progress",
    responseStatus := none, responseBody := "", responseType := none,
    lockedUntil := lockUntil, createdAt := now, updatedAt := now,
    completedAt := none }

/-- The expired-lock reacquisition UPDATE (`SET status = 'in_progress',
locked_until = $3, updated_at = now() WHERE scope = $1 AND
idempotency_key = $2`). -/
def reacquireUpdate (scope key : String) (now lockUntil : Int)
    (db : List IdemRow) : List IdemRow :=
  db.map (fun r => if r.scope == scope && r.key == key then
    { r with status := "in_progress", lockedUntil := lockUntil,
             updatedAt := now }
    else r)

/-- `(*SQLXStore).Acquire`. The whole body runs inside one transaction
holding the row lock; an `Except.error` models the Go error returns
(validation failures), after which the deferred rollback leaves the table
unchanged. -/
def Acquire (now : Int) (db : List IdemRow) (request : IdemRequest) :
    Except String (Decision × List IdemRow) :=
  let lockTTL := if request.lockTTL ≤ 0 then defaultLockTTL else request.lockTTL
  let scope := trimSpace request.scope
  if scope = "" then .error "idempotency: scope is required"
  else
    let key := trimSpace request.key
    if key = "" then .error "idempotency: key is required"
    else
      let hash := trimSpace request.requestHash
      if hash = "" then .error "idempotency: request hash is required"
      else
        let lockUntil := now + lockTTL
        match findIdemRow db scope key with
        | none =>
            .ok ({ type := .acquired },
                 db ++ [freshIdemRow scope key hash now lockUntil])
        | some existing =>
            if existing.requestHash ≠ hash then
              .ok ({ type := .conflict }, db)
            else if existing.status = "completed" then
              .ok ({ type := .replay,
                     statusCode := existing.responseStatus.getD 0,
                     body := existing.responseBody,
                     contentType := existing.responseType.getD "" }, db)
            else if existing.status = "in_progress" ∧ now < existing.lockedUntil then
              .ok ({ type := .inProgress }, db)
            else
              .ok ({ type := .acquired },
                   reacquireUpdate scope key now lockUntil db)

/-- The completion UPDATE matches scope, key AND hash. -/
def completeMatches (scope key hash : String) (r : IdemRow) : Bool :=
  r.scope == scope && r.key == key && r.requestHash == hash

/-- The SET clause of the completion UPDATE (content type stored
trimmed). -/
def completedRow (response : StoredResponse) (now : Int) (r : IdemRow) : IdemRow :=
  { r with status := "completed",
           responseStatus := some response.statusCode,
           responseBody := response.body,
           responseType := some (trimSpace response.contentType),
           lockedUntil := now, completedAt := some now,
           updatedAt := now }

/-- `(*SQLXStore).Complete`: persist the response triple and mark the
record completed; zero affected rows is an error. -/
def Complete (now : Int) (db : List IdemRow) (request : IdemRequest)
    (response : StoredResponse) : Except String (List IdemRow) :=
  let scope := trimSpace request.scope
  if scope = "" then .error "idempotency: scope is required"
  else
    let key := trimSpace request.key
    if key = "" then .error "idempotency: key is required"
    else
      let hash := trimSpace request.requestHash
      if hash = "" then .error "idempotency: request hash is required"
      else
        if db.countP (fun r => completeMatches scope key hash r) = 0 then
          .error "idempotency: key not found for completion"
        else
          .ok (db.map (fun r => if completeMatches scope key hash r then
            completedRow response now r else r))

/-! ## Withdraw request pipeline
(`internal/middlewares/http.withdraw.idempotency.go` inline in the
middlewares package, `internal/handlers/withdraw.balance.go`, the withdraw
service). -/

/-- The canonical request-hash preimage: uppercased trimmed method, trimmed
path, trimmed principal id and the raw body bytes, joined by newlines
(`withdrawRequestHash` writes them into a sha256 in this order). -/
def withdrawRequestHashInput (method path userID body : String) : String :=
  toUpperStr (trimSpace method) ++ "\n" ++ trimSpace path ++ "\n" ++ trimSpace userID ++ "\n" ++ body

/-- `withdrawRequestHash`, with the sha256-hex digest abstracted as the
`hashFn` parameter (the claims below use only that the digest is a
function of the canonical preimage, so they hold for sha256 as an
instance). -/
def withdrawRequestHash (hashFn : String → String)
    (method path userID body : String) : String :=
  hashFn (withdrawRequestHashInput method path userID body)

/-- An HTTP response as observed by the client: status, raw body bytes and
the Content-Type header ("" when none was set explicitly). -/
structure HTTPResponse where
  status : Int
  body : String
  contentType : String := ""
  deriving Repr, DecidableEq

/-- Combined persistent state crossed by the withdraw pipeline. -/
structure SysState where
  idem : List IdemRow
  walletDB : WalletDB
  deriving Repr

/-- One inbound `POST /withdrawals` request. `userID` is the authenticated
principal placed in `Locals("user_id")` ("" when unauthenticated);
`amountMinor` is the `amount_minor` field the handler decodes from
`rawBody` (JSON decoding itself is not modelled). -/
structure WithdrawHTTPRequest where
  userID : String
  idempotencyKey : String
  method : String := "POST"
  path : String := "/withdrawals"
  rawBody : String
  amountMinor : Int
  chainID : String := ""
  deriving Repr, DecidableEq

def jsonError (msg : String) : String :=
  "\x7b\"error\":\"" ++ msg ++ "\"\x7d"

def applicationJSON : String := "application/json"

/-- `vo.WalletWithdrawal`, the success payload. -/
structure WalletWithdrawal where
  userId : String
  amountMinor : Int
  balanceMinor : Int
  currency : String
  chainId : String
  updatedAt : Int
  deriving Repr, DecidableEq

/-- JSON rendering of the success payload in struct-tag order (the
`updated_at` time is rendered as its integer instant; the exact time
format is irrelevant to the claims, which need only determinism). -/
def renderWalletWithdrawal (wi : WalletWithdrawal) : String :=
  "\x7b\"user_id\":\"" ++ wi.userId ++ "\",\"amount_minor\":"
    ++ toString wi.amountMinor ++ ",\"balance_minor\":"
    ++ toString wi.balanceMinor ++ ",\"currency\":\"" ++ wi.currency
    ++ "\",\"chain_id\":\"" ++ wi.chainId ++ "\",\"updated_at\":"
    ++ toString wi.updatedAt ++ "\x7d"

/-- `(*InquiryWithdrawBalanceService).WithdrawBalance`. -/
def WithdrawBalance (db : WalletDB) (now : Int) (userID : String)
    (amountMinor : Int) (chainID : String) :
    Except WithdrawErr WalletWithdrawal × WalletDB :=
  if trimSpace userID = "" then (.error .walletNotFound, db)
  else if amountMinor ≤ 0 then (.error .invalidAmount, db)
  else
    let o := WithdrawWalletBalanceByUserID noFaults db now userID amountMinor chainID
    match o.result with
    | .error e => (.error e, o.db)
    | .ok b =>
        (.ok ⟨b.userId, amountMinor, b.balanceMinor, b.currency, chainID,
              b.updatedAt⟩, o.db)

/-- `(*InquiryWithdrawBalanceHandler).Handle`: map the service result to
one fixed HTTP status and a generic JSON body. -/
def withdrawHandler (now : Int) (db : WalletDB) (req : WithdrawHTTPRequest) :
    HTTPResponse × WalletDB :=
  if req.userID = "" then
    (⟨401, jsonError "missing authenticated user", applicationJSON⟩, db)
  else
    let r := WithdrawBalance db now req.userID req.amountMinor req.chainID
    match r.1 with
    | .error .invalidAmount =>
        (⟨400, jsonError "amount_minor must be greater than 0", applicationJSON⟩, r.2)
    | .error .walletNotFound =>
        (⟨404, jsonError "wallet not found", applicationJSON⟩, r.2)
    | .error .insufficientBalance =>
        (⟨409, jsonError "insufficient balance", applicationJSON⟩, r.2)
    | .error _ =>
        (⟨500, jsonError "internal server error", applicationJSON⟩, r.2)
    | .ok wi => (⟨200, renderWalletWithdrawal wi, applicationJSON⟩, r.2)

/-- The `idempotency.Request` the middleware builds: scope
`fmt.Sprintf("withdraw:%s", userID)`, the trimmed key header, the request
hash, and the zero `LockTTL`. -/
def pipelineIdemRequest (hashFn : String → String)
    (req : WithdrawHTTPRequest) : IdemRequest :=
  { scope := "withdraw:" ++ req.userID,
    key := trimSpace req.idempotencyKey,
    requestHash := withdrawRequestHash hashFn req.method req.path req.userID req.rawBody }

/-- `NewHTTPWithdrawIdempotencyMiddleware` (store present): authenticate,
require the key header, hash the canonical request, arbitrate through
`Acquire`, and on `Acquired` run the inner handler and persist its
response through `Complete`. -/
def withdrawIdempotencyMiddleware (hashFn : String → String) (now : Int)
    (handler : WalletDB → WithdrawHTTPRequest → HTTPResponse × WalletDB)
    (st : SysState) (req : WithdrawHTTPRequest) : HTTPResponse × SysState :=
  if trimSpace req.userID = "" then
    (⟨401, jsonError "missing authenticated user", applicationJSON⟩, st)
  else
    let key := trimSpace req.idempotencyKey
    if key = "" then
      (⟨400, jsonError "missing idempotency key", applicationJSON⟩, st)
    else
      match Acquire now st.idem (pipelineIdemRequest hashFn req) with
      | .error _ =>
          (⟨500, jsonError "failed to acquire idempotency key", applicationJSON⟩, st)
      | .ok (decision, idem₁) =>
        match decision.type with
        | .replay =>
            let status := if decision.statusCode ≤ 0 then 200 else decision.statusCode
            (⟨status, decision.body, decision.contentType⟩,
             { st with idem := idem₁ })
        | .inProgress =>
            (⟨409, jsonError "request is already in progress", applicationJSON⟩,
             { st with idem := idem₁ })
        | .conflict =>
            (⟨409, jsonError "idempotency key reused with different payload", applicationJSON⟩,
             { st with idem := idem₁ })
        | .acquired =>
            let hr := handler st.walletDB req
            match Complete now idem₁ (pipelineIdemRequest hashFn req)
                ⟨hr.1.status, hr.1.body, hr.1.contentType⟩ with
            | .error _ =>
                (⟨500, jsonError "failed to persist idempotency response", applicationJSON⟩,
                 ⟨idem₁, hr.2⟩)
            | .ok idem₂ => (hr.1, ⟨idem₂, hr.2⟩)

/-- The withdraw endpoint behind the idempotency middleware. -/
def withdrawPipeline (hashFn : String → String) (now : Int)
    (st : SysState) (req : WithdrawHTTPRequest) : HTTPResponse × SysState :=
  withdrawIdempotencyMiddleware hashFn now (withdrawHandler now) st req

/-! ## Rate limiter (`internal/shared/ratelimit/redis_store.go`)

The fixed-window Lua script, executed atomically by Redis. Times are
`Int` milliseconds (`PEXPIRE`/`PTTL` granularity); an expired key reads as
absent. -/

/-- `ratelimit.Result` (durations flattened to milliseconds). -/
structure RLResult where
  allowed : Bool
  limit : Int
  remaining : Int
  resetAtMs : Int
  retryAfterMs : Int
  deriving Repr, DecidableEq

/-- Per-key Redis state for the fixed-window counter: the counter value
and the absolute expiry instant set by `PEXPIRE`. -/
structure FWState where
  count : Int
  expireAt : Int
  deriving Repr, DecidableEq

/-- One execution of the fixed-window script (`INCR`; `PEXPIRE` when the
counter was created; `PTTL`; compare against the limit) followed by the Go
wrapper that builds the `Result` (retry-after only on denial). -/
def fixedWindow (st : Option FWState) (nowMs windowMs limit : Int) :
    RLResult × Option FWState :=
  let liveCount : Int :=
    match st with
    | some e => if nowMs < e.expireAt then e.count else 0
    | none => 0
  let current := liveCount + 1
  let expireAt :=
    if current = 1 then nowMs + windowMs
    else
      match st with
      | some e => e.expireAt
      | none => nowMs + windowMs
  let ttl := expireAt - nowMs
  let allowed := current ≤ limit
  ({ allowed := allowed, limit := limit,
     remaining := if allowed then limit - current else 0,
     resetAtMs := nowMs + ttl,
     retryAfterMs := if allowed then 0 else ttl },
   some ⟨current, expireAt⟩)

/-- A sequence of fixed-window checks on one key at the given instants. -/
def fixedWindowRun (st : Option FWState) (times : List Int)
    (windowMs limit : Int) : List RLResult × Option FWState :=
  match times with
  | [] => ([], st)
  | t :: ts =>
      let step := fixedWindow st t windowMs limit
      let rest := fixedWindowRun step.2 ts windowMs limit
      (step.1 :: rest.1, rest.2)

/-! ## Rate-limit middleware (`NewHTTPRateLimitMiddleware`) -/

/-- `int(result.RetryAfter.Seconds())`, clamped up to 1. -/
def rateLimitRetryAfterSeconds (retryAfterMs : Int) : Int :=
  let s := retryAfterMs / 1000
  if s < 1 then 1 else s

/-- The denial body `fiber.Map` rendering (Go JSON-encodes maps with keys
in sorted order, so "error" precedes "retry_after"). -/
def rateLimitExceededBody (retryAfterSec : Int) : String :=
  "\x7b\"error\":\"rate limit exceeded\",\"retry_after\":"
    ++ toString retryAfterSec ++ "\x7d"

/-- A 429 rejection: status, the Retry-After header value, the body. -/
structure RateLimitReject where
  status : Int
  retryAfterHeader : Int
  body : String
  deriving Repr, DecidableEq

/-- The middleware's decision on a limiter result: pass through
(`none`, i.e. `c.Next()`) or reject immediately with 429 — no internal
blocking or retrying. -/
def rateLimitMiddlewareStep (result : RLResult) : Option RateLimitReject :=
  if result.allowed then none
  else
    let retryAfter := rateLimitRetryAfterSeconds result.retryAfterMs
    some { status := 429, retryAfterHeader := retryAfter,
           body := rateLimitExceededBody retryAfter }

/-! ## Algorithm selection by configuration string -/

inductive RLAlgorithm where
  | tokenBucket
  | slidingWindow
  | fixedWindowAlg
  deriving Repr, DecidableEq

/-- `parseRateLimitAlgorithm` (`internal/app/app.ratelimit.go`):
`switch strings.TrimSpace(strings.ToLower(value))` with a token-bucket
default case. -/
def parseRateLimitAlgorithm (value : String) : RLAlgorithm :=
  let v := trimSpace (toLowerStr value)
  if v = "sliding_window" then .slidingWindow
  else if v = "fixed_window" then .fixedWindowAlg
  else .tokenBucket

/-- The `(*RedisStore).Allow` dispatch over `config.Algorithm`, whose
default case also falls back to the token bucket. -/
def allowDispatch (algorithm : String) : RLAlgorithm :=
  if algorithm = "token_bucket" then .tokenBucket
  else if algorithm = "sliding_window" then .slidingWindow
  else if algorithm = "fixed_window" then .fixedWindowAlg
  else .tokenBucket

/-- `hash.Options` (`internal/shared/hash/hash.go`). -/
structure HashOptions where
  strategy : String
  cost : Int
  deriving Repr, DecidableEq

inductive HasherKind where
  | bcrypt
  deriving Repr, DecidableEq

def bcryptDefaultCost : Int := 10
def bcryptMinCost : Int := 4
def bcryptMaxCost : Int := 31

/-- `hash.NewBcrypt`. -/
def NewBcrypt (cost : Int) : Except String HasherKind :=
  let c := if cost = 0 then bcryptDefaultCost else cost
  if c < bcryptMinCost ∨ bcryptMaxCost < c then
    .error "hash: bcrypt cost out of range"
  else .ok .bcrypt

/-- `hash.New`: the only recognized strategy is "bcrypt"; the default case
returns an error (`hash: unknown strategy`). -/
def hashNew (opts : HashOptions) : Except String HasherKind :=
  if opts.strategy = "bcrypt" then NewBcrypt opts.cost
  else .error "hash: unknown strategy"

/-! ## Shared list lemmas -/

theorem map_if_eq_self {α : Type} (p : α → Bool) (f : α → α) :
    ∀ l : List α, (∀ x ∈ l, p x = false) →
      l.map (fun x => if p x then f x else x) = l := by
  intro l
  induction l with
  | nil => intro _; rfl
  | cons a t ih =>
    intro h
    have ha := h a (List.mem_cons_self a t)
    simp only [List.map_cons, ha, if_neg]
    rw [ih (fun x hx => h x (List.mem_cons_of_mem a hx))]
    simp [ha]

theorem find?_append_of_none {α : Type} (p : α → Bool) (l₁ l₂ : List α)
    (h : ∀ x ∈ l₁, p x = false) : (l₁ ++ l₂).find? p = l₂.find? p := by
  induction l₁ with
  | nil => rfl
  | cons a t ih =>
    have ha := h a (List.mem_cons_self a t)
    rw [List.cons_append, List.find?_cons_of_neg _ (by simp [ha]),
        ih (fun x hx => h x (List.mem_cons_of_mem a hx))]

theorem find?_isSome_iff {α : Type} (p : α → Bool) (l : List α) :
    (l.find? p).isSome = true ↔ ∃ x ∈ l, p x = true := by
  induction l with
  | nil => simp [List.find?]
  | cons a t ih =>
    by_cases hp : p a = true
    · rw [List.find?_cons_of_pos _ hp]
      simp [hp]
    · rw [List.find?_cons_of_neg _ (by simpa using hp)]
      simp only [ih, List.mem_cons]
      constructor
      · rintro ⟨x, hx, hpx⟩; exact ⟨x, Or.inr hx, hpx⟩
      · rintro ⟨x, hx, hpx⟩
        rcases hx with rfl | hx
        · exact absurd hpx hp
        · exact ⟨x, hx, hpx⟩

/-! ## Repository-level lemmas shared by several claims -/

/-- Every failing repository call leaves the database unchanged: only the
committing success branch installs the transaction snapshot. -/
theorem withdraw_error_rollback (f : DBFaults) (db : WalletDB) (now : Int)
    (userID : String) (amountMinor : Int) (chainID : String) (e : WithdrawErr)
    (h : (WithdrawWalletBalanceByUserID f db now userID amountMinor chainID).result
        = .error e) :
    (WithdrawWalletBalanceByUserID f db now userID amountMinor chainID).db = db := by
  unfold WithdrawWalletBalanceByUserID at h ⊢
  cases huuid : uuidParse userID with
  | none => simp [huuid]
  | some uid =>
    simp only [huuid] at h ⊢
    by_cases h1 : amountMinor ≤ 0
    · simp [h1]
    · simp only [if_neg h1] at h ⊢
      by_cases h2 : f.beginFail = true
      · simp [h2]
      · simp only [Bool.not_eq_true] at h2
        simp only [h2, Bool.false_eq_true, if_false] at h ⊢
        by_cases h3 : f.updateFail = true
        · simp [h3]
        · simp only [Bool.not_eq_true] at h3
          simp only [h3, Bool.false_eq_true, if_false] at h ⊢
          cases hupd : (withdrawWalletUpdate db.wallets uid amountMinor now).2 with
          | none =>
            simp only [hupd]
            split
            · rfl
            · split <;> rfl
          | some row =>
            simp only [hupd] at h ⊢
            by_cases h4 : f.insertFail = true
            · simp [h4]
            · simp only [Bool.not_eq_true] at h4
              simp only [h4, Bool.false_eq_true, if_false] at h ⊢
              by_cases h5 : f.commitFail = true
              · simp [h5]
              · simp only [Bool.not_eq_true] at h5
                simp only [h5, Bool.false_eq_true, if_false] at h
                exact absurd h (by simp)

/-- A successful repository call got its new wallet table from the single
conditional UPDATE statement (`withdrawWalletUpdate`). -/
theorem withdraw_ok_wallets (f : DBFaults) (db : WalletDB) (now : Int)
    (userID : String) (amountMinor : Int) (chainID : String) (b : WalletBalance)
    (h : (WithdrawWalletBalanceByUserID f db now userID amountMinor chainID).result
        = .ok b) :
    ∃ uid, uuidParse userID = some uid ∧
      (WithdrawWalletBalanceByUserID f db now userID amountMinor chainID).db.wallets =
        (withdrawWalletUpdate db.wallets uid amountMinor now).1 := by
  unfold WithdrawWalletBalanceByUserID at h ⊢
  cases huuid : uuidParse userID with
  | none => simp [huuid] at h
  | some uid =>
    refine ⟨uid, rfl, ?_⟩
    simp only [huuid] at h ⊢
    by_cases h1 : amountMinor ≤ 0
    · simp [h1] at h
    · simp only [if_neg h1] at h ⊢
      by_cases hb2 : f.beginFail = true
      · simp [hb2] at h
      · simp only [Bool.not_eq_true] at hb2
        simp only [hb2, Bool.false_eq_true, if_false] at h ⊢
        by_cases hb3 : f.updateFail = true
        · simp [hb3] at h
        · simp only [Bool.not_eq_true] at hb3
          simp only [hb3, Bool.false_eq_true, if_false] at h ⊢
          cases hupd : (withdrawWalletUpdate db.wallets uid amountMinor now).2 with
          | none =>
            exfalso
            simp only [hupd] at h
            split at h
            · simp at h
            · split at h <;> simp at h
          | some row =>
            simp only [hupd] at h ⊢
            by_cases hb4 : f.insertFail = true
            · simp [hb4] at h
            · simp only [Bool.not_eq_true] at hb4
              simp only [hb4, Bool.false_eq_true, if_false] at h ⊢
              by_cases hb5 : f.commitFail = true
              · simp [hb5] at h
              · simp only [Bool.not_eq_true] at hb5
                simp [hb5]

/-- The fault-free success path, computed on an explicit decomposition of
the wallet table around the unique row of the withdrawing user. -/
theorem withdraw_success_run (db : WalletDB) (now : Int) (userID uid : String)
    (amountMinor : Int) (chainID : String) (A B : List Wallet) (w : Wallet)
    (huuid : uuidParse userID = some uid)
    (hamt : 0 < amountMinor)
    (hsplit : db.wallets = A ++ w :: B)
    (hw : w.userId = uid)
    (hbal : amountMinor ≤ w.balanceMinor)
    (hA : ∀ x ∈ A, x.userId ≠ uid)
    (hB : ∀ x ∈ B, x.userId ≠ uid) :
    WithdrawWalletBalanceByUserID noFaults db now userID amountMinor chainID =
      ⟨.ok ⟨uid, w.balanceMinor - amountMinor, w.currency, now⟩,
       ⟨A ++ debit amountMinor now w :: B,
        db.ledger ++
          [⟨w.walletId, "withdrawal", -amountMinor, w.balanceMinor - amountMinor,
            none, if chainID ≠ "" then some chainID else none, now⟩]⟩,
       true⟩ := by
  have hguardA : ∀ x ∈ A, withdrawGuard uid amountMinor x = false := by
    intro x hx
    simp [withdrawGuard, beq_eq_false_iff_ne.mpr (hA x hx)]
  have hguardB : ∀ x ∈ B, withdrawGuard uid amountMinor x = false := by
    intro x hx
    simp [withdrawGuard, beq_eq_false_iff_ne.mpr (hB x hx)]
  have hguardw : withdrawGuard uid amountMinor w = true := by
    simp [withdrawGuard, hw, hbal]
  have hupd1 : (withdrawWalletUpdate db.wallets uid amountMinor now).1 =
      A ++ debit amountMinor now w :: B := by
    unfold withdrawWalletUpdate
    dsimp only
    rw [hsplit, List.map_append, List.map_cons, map_if_eq_self _ _ A hguardA,
        map_if_eq_self _ _ B hguardB, if_pos hguardw]
  have hupd2 : (withdrawWalletUpdate db.wallets uid amountMinor now).2 =
      some (debit amountMinor now w) := by
    unfold withdrawWalletUpdate
    dsimp only
    rw [hsplit, find?_append_of_none _ A _ hguardA,
        List.find?_cons_of_pos _ hguardw, Option.map_some']
  unfold WithdrawWalletBalanceByUserID
  simp only [huuid, if_neg (not_le.mpr hamt), noFaults, hupd2, hupd1]
  simp [debit, hw]

/-! ## C1 -/

/-- **C1.** For every wallet the balance never becomes negative: a
fault-free withdraw whose amount strictly exceeds the user's balance
returns `insufficientBalance` and leaves the database (balances and
versions) unchanged; under arbitrary faults, non-negativity of all
balances is preserved; and the non-negativity check is the guard of the
same single conditional-update statement that applies the debit — the new
table is pointwise `if guard then debit else unchanged`, and the update
touches a row iff the guard holds for some row. -/
theorem balance_never_negative :
    (∀ (db : WalletDB) (now : Int) (userID uid : String) (amountMinor : Int)
       (chainID : String),
       uuidParse userID = some uid →
       0 < amountMinor →
       (∃ w ∈ db.wallets, w.userId = uid) →
       (∀ w ∈ db.wallets, w.userId = uid → w.balanceMinor < amountMinor) →
       WithdrawWalletBalanceByUserID noFaults db now userID amountMinor chainID =
         ⟨.error .insufficientBalance, db, true⟩) ∧
    (∀ (f : DBFaults) (db : WalletDB) (now : Int) (userID : String)
       (amountMinor : Int) (chainID : String),
       (∀ w ∈ db.wallets, 0 ≤ w.balanceMinor) →
       ∀ w ∈ (WithdrawWalletBalanceByUserID f db now userID amountMinor chainID).db.wallets,
         0 ≤ w.balanceMinor) ∧
    (∀ (wallets : List Wallet) (uid : String) (amountMinor now : Int),
       (withdrawWalletUpdate wallets uid amountMinor now).1 =
         wallets.map (fun w => if withdrawGuard uid amountMinor w
                               then debit amountMinor now w else w) ∧
       ((withdrawWalletUpdate wallets uid amountMinor now).2.isSome = true ↔
         ∃ w ∈ wallets, withdrawGuard uid amountMinor w = true)) := by
  refine ⟨?_, ?_, ?_⟩
  · intro db now userID uid amountMinor chainID huuid hamt hex hlow
    have hfind : db.wallets.find? (withdrawGuard uid amountMinor) = none := by
      rw [List.find?_eq_none]
      intro x hx
      simp only [withdrawGuard, Bool.and_eq_true, beq_iff_eq, not_and,
        decide_eq_true_eq]
      intro hxu
      exact not_le.mpr (hlow x hx hxu)
    have hhas : hasWalletByUserID db.wallets uid = true := by
      obtain ⟨w, hwmem, hwid⟩ := hex
      unfold hasWalletByUserID
      rw [List.any_eq_true]
      exact ⟨w, hwmem, by simp [hwid]⟩
    unfold WithdrawWalletBalanceByUserID
    simp only [huuid, if_neg (not_le.mpr hamt), noFaults]
    simp [withdrawWalletUpdate, hfind, hhas]
  · intro f db now userID amountMinor chainID hnn w hw
    cases hres : (WithdrawWalletBalanceByUserID f db now userID amountMinor chainID).result with
    | error e =>
      rw [withdraw_error_rollback f db now userID amountMinor chainID e hres] at hw
      exact hnn w hw
    | ok b =>
      obtain ⟨uid, huuid, hshape⟩ :=
        withdraw_ok_wallets f db now userID amountMinor chainID b hres
      rw [hshape] at hw
      simp only [withdrawWalletUpdate, List.mem_map] at hw
      obtain ⟨x, hx, rfl⟩ := hw
      by_cases hg : withdrawGuard uid amountMinor x = true
      · rw [if_pos hg]
        have hle : amountMinor ≤ x.balanceMinor := by
          have hg2 := hg
          simp only [withdrawGuard, Bool.and_eq_true, decide_eq_true_eq] at hg2
          exact hg2.2
        simp only [debit]
        omega
      · rw [if_neg hg]
        exact hnn x hx
  · intro wallets uid amountMinor now
    refine ⟨rfl, ?_⟩
    unfold withdrawWalletUpdate
    simp only [Option.isSome_map']
    exact find?_isSome_iff _ _

def demoUser : String := "11111111-1111-1111-1111-111111111111"

def demoWalletLow : Wallet := ⟨1, demoUser, 100, "IDR", 0, 0⟩

/-- Witness for C1 at wallet balance 100, withdraw 500. -/
theorem balance_never_negative_witness :
    WithdrawWalletBalanceByUserID noFaults ⟨[demoWalletLow], []⟩ 5 demoUser 500 "" =
      ⟨.error .insufficientBalance, ⟨[demoWalletLow], []⟩, true⟩ :=
  balance_never_negative.1 ⟨[demoWalletLow], []⟩ 5 demoUser demoUser 500 ""
    (by decide) (by decide) (by decide) (by decide)

/-! ## Acquire branch lemmas (shared) -/

theorem acquireFreshEq (now : Int) (db : List IdemRow) (request : IdemRequest)
    (hscope : trimSpace request.scope ≠ "")
    (hkey : trimSpace request.key ≠ "")
    (hhash : trimSpace request.requestHash ≠ "")
    (hfind : findIdemRow db (trimSpace request.scope) (trimSpace request.key) = none) :
    Acquire now db request =
      .ok ({ type := .acquired },
           db ++ [freshIdemRow (trimSpace request.scope) (trimSpace request.key)
             (trimSpace request.requestHash) now
             (now + (if request.lockTTL ≤ 0 then defaultLockTTL else request.lockTTL))]) := by
  unfold Acquire
  simp only [hfind, if_neg hscope, if_neg hkey, if_neg hhash]

theorem acquireConflictEq (now : Int) (db : List IdemRow) (request : IdemRequest)
    (row : IdemRow)
    (hscope : trimSpace request.scope ≠ "")
    (hkey : trimSpace request.key ≠ "")
    (hhash : trimSpace request.requestHash ≠ "")
    (hfind : findIdemRow db (trimSpace request.scope) (trimSpace request.key) = some row)
    (hdiff : row.requestHash ≠ trimSpace request.requestHash) :
    Acquire now db request = .ok ({ type := .conflict }, db) := by
  unfold Acquire
  simp only [hfind, if_neg hscope, if_neg hkey, if_neg hhash, if_pos hdiff]

theorem acquireReplayEq (now : Int) (db : List IdemRow) (request : IdemRequest)
    (row : IdemRow)
    (hscope : trimSpace request.scope ≠ "")
    (hkey : trimSpace request.key ≠ "")
    (hhash : trimSpace request.requestHash ≠ "")
    (hfind : findIdemRow db (trimSpace request.scope) (trimSpace request.key) = some row)
    (hrowhash : row.requestHash = trimSpace request.requestHash)
    (hstatus : row.status = "completed") :
    Acquire now db request =
      .ok ({ type := .replay,
             statusCode := row.responseStatus.getD 0,
             body := row.responseBody,
             contentType := row.responseType.getD "" }, db) := by
  unfold Acquire
  simp only [hfind, if_neg hscope, if_neg hkey, if_neg hhash,
    if_neg (not_not_intro hrowhash), if_pos hstatus]

theorem acquireInProgressEq (now : Int) (db : List IdemRow) (request : IdemRequest)
    (row : IdemRow)
    (hscope : trimSpace request.scope ≠ "")
    (hkey : trimSpace request.key ≠ "")
    (hhash : trimSpace request.requestHash ≠ "")
    (hfind : findIdemRow db (trimSpace request.scope) (trimSpace request.key) = some row)
    (hrowhash : row.requestHash = trimSpace request.requestHash)
    (hstatus : row.status = "in_progress")
    (hlock : now < row.lockedUntil) :
    Acquire now db request = .ok ({ type := .inProgress }, db) := by
  have hnc : ¬(row.status = "completed") := by
    rw [hstatus]; decide
  unfold Acquire
  simp only [hfind, if_neg hscope, if_neg hkey, if_neg hhash,
    if_neg (not_not_intro hrowhash), if_neg hnc, if_pos (And.intro hstatus hlock)]

theorem acquireReacquireEq (now : Int) (db : List IdemRow) (request : IdemRequest)
    (row : IdemRow)
    (hscope : trimSpace request.scope ≠ "")
    (hkey : trimSpace request.key ≠ "")
    (hhash : trimSpace request.requestHash ≠ "")
    (hfind : findIdemRow db (trimSpace request.scope) (trimSpace request.key) = some row)
    (hrowhash : row.requestHash = trimSpace request.requestHash)
    (hstatus : row.status = "in_progress")
    (hlock : row.lockedUntil ≤ now) :
    Acquire now db request =
      .ok ({ type := .acquired },
           reacquireUpdate (trimSpace request.scope) (trimSpace request.key) now
             (now + (if request.lockTTL ≤ 0 then defaultLockTTL else request.lockTTL))
             db) := by
  have hnc : ¬(row.status = "completed") := by
    rw [hstatus]; decide
  have hnp : ¬(row.status = "in_progress" ∧ now < row.lockedUntil) := by
    rintro ⟨-, hl⟩
    exact absurd hl (not_lt.mpr hlock)
  unfold Acquire
  simp only [hfind, if_neg hscope, if_neg hkey, if_neg hhash,
    if_neg (not_not_intro hrowhash), if_neg hnc, if_neg hnp]

/-- `Complete` on a table whose only (scope,key,hash)-matching row is the
freshly appended one: it marks exactly that row completed. -/
theorem completeAppendEq (now : Int) (db : List IdemRow) (request : IdemRequest)
    (response : StoredResponse) (row : IdemRow)
    (hscope : trimSpace request.scope ≠ "")
    (hkey : trimSpace request.key ≠ "")
    (hhash : trimSpace request.requestHash ≠ "")
    (hnomatch : ∀ r ∈ db,
      completeMatches (trimSpace request.scope) (trimSpace request.key)
        (trimSpace request.requestHash) r = false)
    (hrow : completeMatches (trimSpace request.scope) (trimSpace request.key)
        (trimSpace request.requestHash) row = true) :
    Complete now (db ++ [row]) request response =
      .ok (db ++ [completedRow response now row]) := by
  unfold Complete
  have hcount : ((db ++ [row]).countP
      (fun r => completeMatches (trimSpace request.scope) (trimSpace request.key)
        (trimSpace request.requestHash) r)) ≠ 0 := by
    rw [List.countP_append]
    have : List.countP (fun r => completeMatches (trimSpace request.scope)
        (trimSpace request.key) (trimSpace request.requestHash) r) [row] = 1 := by
      simp [List.countP_cons, hrow]
    omega
  simp only [if_neg hscope, if_neg hkey, if_neg hhash, if_neg hcount,
    List.map_append, List.map_cons, List.map_nil, if_pos hrow,
    map_if_eq_self _ _ db hnomatch]

/-! ## Handler and middleware lemmas (shared) -/

/-- Every handler response has a positive status and the JSON content
type. -/
theorem withdrawHandler_shape (now : Int) (db : WalletDB)
    (req : WithdrawHTTPRequest) :
    0 < (withdrawHandler now db req).1.status ∧
    (withdrawHandler now db req).1.contentType = applicationJSON := by
  unfold withdrawHandler
  split
  · exact ⟨by norm_num, rfl⟩
  · cases hres : (WithdrawBalance db now req.userID req.amountMinor req.chainID).1 with
    | error e => cases e <;> simp only [hres] <;> norm_num
    | ok wi => simp only [hres]; norm_num

/-- The handler on the fault-free success path. -/
theorem withdrawHandler_success_run (now : Int) (db : WalletDB)
    (req : WithdrawHTTPRequest) (uid : String) (A B : List Wallet) (w : Wallet)
    (htrim : trimSpace req.userID ≠ "")
    (huuid : uuidParse req.userID = some uid)
    (hamt : 0 < req.amountMinor)
    (hsplit : db.wallets = A ++ w :: B)
    (hw : w.userId = uid)
    (hbal : req.amountMinor ≤ w.balanceMinor)
    (hA : ∀ x ∈ A, x.userId ≠ uid)
    (hB : ∀ x ∈ B, x.userId ≠ uid) :
    withdrawHandler now db req =
      (⟨200, renderWalletWithdrawal
          ⟨uid, req.amountMinor, w.balanceMinor - req.amountMinor, w.currency,
           req.chainID, now⟩, applicationJSON⟩,
       ⟨A ++ debit req.amountMinor now w :: B,
        db.ledger ++
          [⟨w.walletId, "withdrawal", -req.amountMinor,
            w.balanceMinor - req.amountMinor, none,
            if req.chainID ≠ "" then some req.chainID else none, now⟩]⟩) := by
  have huser : ¬(req.userID = "") := by
    intro h
    apply htrim
    rw [h]
    decide
  have hrepo := withdraw_success_run db now req.userID uid req.amountMinor
    req.chainID A B w huuid hamt hsplit hw hbal hA hB
  unfold withdrawHandler WithdrawBalance
  simp only [if_neg huser, if_neg htrim, if_neg (not_le.mpr hamt), hrepo]

/-- The middleware on a fresh acquisition: the inner handler runs once and
its response is persisted onto the freshly inserted record. -/
theorem middlewareFreshEq (hashFn : String → String) (now : Int)
    (handler : WalletDB → WithdrawHTTPRequest → HTTPResponse × WalletDB)
    (st : SysState) (req : WithdrawHTTPRequest)
    (huser : trimSpace req.userID ≠ "")
    (hkeyMW : trimSpace req.idempotencyKey ≠ "")
    (hscopeA : trimSpace (pipelineIdemRequest hashFn req).scope ≠ "")
    (hkeyA : trimSpace (pipelineIdemRequest hashFn req).key ≠ "")
    (hhashA : trimSpace (pipelineIdemRequest hashFn req).requestHash ≠ "")
    (hfind : findIdemRow st.idem (trimSpace (pipelineIdemRequest hashFn req).scope)
      (trimSpace (pipelineIdemRequest hashFn req).key) = none) :
    withdrawIdempotencyMiddleware hashFn now handler st req =
      ((handler st.walletDB req).1,
       ⟨st.idem ++
          [completedRow ⟨(handler st.walletDB req).1.status,
             (handler st.walletDB req).1.body,
             (handler st.walletDB req).1.contentType⟩ now
            (freshIdemRow (trimSpace (pipelineIdemRequest hashFn req).scope)
              (trimSpace (pipelineIdemRequest hashFn req).key)
              (trimSpace (pipelineIdemRequest hashFn req).requestHash)
              now (now + defaultLockTTL))],
        (handler st.walletDB req).2⟩) := by
  have hpair : ∀ r ∈ st.idem,
      (r.scope == trimSpace (pipelineIdemRequest hashFn req).scope &&
       r.key == trimSpace (pipelineIdemRequest hashFn req).key) = false := by
    intro r hr
    have := List.find?_eq_none.mp hfind r hr
    simpa using this
  have hnomatch : ∀ r ∈ st.idem,
      completeMatches (trimSpace (pipelineIdemRequest hashFn req).scope)
        (trimSpace (pipelineIdemRequest hashFn req).key)
        (trimSpace (pipelineIdemRequest hashFn req).requestHash) r = false := by
    intro r hr
    have hp := hpair r hr
    unfold completeMatches
    cases hsc : (r.scope == trimSpace (pipelineIdemRequest hashFn req).scope) <;>
      cases hk : (r.key == trimSpace (pipelineIdemRequest hashFn req).key) <;>
      simp_all
  have hrow : completeMatches (trimSpace (pipelineIdemRequest hashFn req).scope)
      (trimSpace (pipelineIdemRequest hashFn req).key)
      (trimSpace (pipelineIdemRequest hashFn req).requestHash)
      (freshIdemRow (trimSpace (pipelineIdemRequest hashFn req).scope)
        (trimSpace (pipelineIdemRequest hashFn req).key)
        (trimSpace (pipelineIdemRequest hashFn req).requestHash)
        now (now + defaultLockTTL)) = true := by
    simp [completeMatches, freshIdemRow]
  have hacq := acquireFreshEq now st.idem (pipelineIdemRequest hashFn req)
    hscopeA hkeyA hhashA hfind
  have httl : (if (pipelineIdemRequest hashFn req).lockTTL ≤ 0 then defaultLockTTL
      else (pipelineIdemRequest hashFn req).lockTTL) = defaultLockTTL := by
    simp [pipelineIdemRequest]
  rw [httl] at hacq
  have hcompl := completeAppendEq now st.idem (pipelineIdemRequest hashFn req)
    ⟨(handler st.walletDB req).1.status, (handler st.walletDB req).1.body,
     (handler st.walletDB req).1.contentType⟩
    (freshIdemRow (trimSpace (pipelineIdemRequest hashFn req).scope)
      (trimSpace (pipelineIdemRequest hashFn req).key)
      (trimSpace (pipelineIdemRequest hashFn req).requestHash)
      now (now + defaultLockTTL))
    hscopeA hkeyA hhashA hnomatch hrow
  unfold withdrawIdempotencyMiddleware
  simp only [if_neg huser, if_neg hkeyMW, hacq, hcompl]

/-- The middleware on a completed record with matching hash: the stored
response is replayed (status falling back to 200 when the stored status is
not positive) and neither the handler nor any state mutation runs. -/
theorem middlewareReplayEq (hashFn : String → String) (now : Int)
    (handler : WalletDB → WithdrawHTTPRequest → HTTPResponse × WalletDB)
    (st : SysState) (req : WithdrawHTTPRequest) (row : IdemRow)
    (huser : trimSpace req.userID ≠ "")
    (hkeyMW : trimSpace req.idempotencyKey ≠ "")
    (hscopeA : trimSpace (pipelineIdemRequest hashFn req).scope ≠ "")
    (hkeyA : trimSpace (pipelineIdemRequest hashFn req).key ≠ "")
    (hhashA : trimSpace (pipelineIdemRequest hashFn req).requestHash ≠ "")
    (hfind : findIdemRow st.idem (trimSpace (pipelineIdemRequest hashFn req).scope)
      (trimSpace (pipelineIdemRequest hashFn req).key) = some row)
    (hrowhash : row.requestHash = trimSpace (pipelineIdemRequest hashFn req).requestHash)
    (hstatus : row.status = "completed") :
    withdrawIdempotencyMiddleware hashFn now handler st req =
      (⟨if row.responseStatus.getD 0 ≤ 0 then 200 else row.responseStatus.getD 0,
        row.responseBody, row.responseType.getD ""⟩, st) := by
  have hacq := acquireReplayEq now st.idem (pipelineIdemRequest hashFn req) row
    hscopeA hkeyA hhashA hfind hrowhash hstatus
  unfold withdrawIdempotencyMiddleware
  simp only [if_neg huser, if_neg hkeyMW, hacq]

/-- The middleware on a record stored under the same key for a different
request hash: 409 conflict, with both stores untouched. -/
theorem middlewareConflictEq (hashFn : String → String) (now : Int)
    (handler : WalletDB → WithdrawHTTPRequest → HTTPResponse × WalletDB)
    (st : SysState) (req : WithdrawHTTPRequest) (row : IdemRow)
    (huser : trimSpace req.userID ≠ "")
    (hkeyMW : trimSpace req.idempotencyKey ≠ "")
    (hscopeA : trimSpace (pipelineIdemRequest hashFn req).scope ≠ "")
    (hkeyA : trimSpace (pipelineIdemRequest hashFn req).key ≠ "")
    (hhashA : trimSpace (pipelineIdemRequest hashFn req).requestHash ≠ "")
    (hfind : findIdemRow st.idem (trimSpace (pipelineIdemRequest hashFn req).scope)
      (trimSpace (pipelineIdemRequest hashFn req).key) = some row)
    (hdiff : row.requestHash ≠ trimSpace (pipelineIdemRequest hashFn req).requestHash) :
    withdrawIdempotencyMiddleware hashFn now handler st req =
      (⟨409, jsonError "idempotency key reused with different payload",
        applicationJSON⟩, st) := by
  have hacq := acquireConflictEq now st.idem (pipelineIdemRequest hashFn req) row
    hscopeA hkeyA hhashA hfind hdiff
  unfold withdrawIdempotencyMiddleware
  simp only [if_neg huser, if_neg hkeyMW, hacq]

/-! ## C2 -/

/-- **C2.** A fault-free successful withdrawal appends exactly one ledger
entry — `entry_type = "withdrawal"`, `amount_minor = -amountMinor`,
`balance_after_minor` equal to the debited wallet's new balance — in the
same committed transaction as the wallet debit; and any failing call
(conditional-update, ledger-insert or commit fault included) rolls the
whole transaction back, leaving the database untouched, so no
debit-without-ledger (or converse) state is observable. -/
theorem withdrawal_ledger_atomicity :
    (∀ (db : WalletDB) (now : Int) (userID uid : String) (amountMinor : Int)
       (chainID : String) (A B : List Wallet) (w : Wallet),
       uuidParse userID = some uid →
       0 < amountMinor →
       db.wallets = A ++ w :: B →
       w.userId = uid →
       amountMinor ≤ w.balanceMinor →
       (∀ x ∈ A, x.userId ≠ uid) →
       (∀ x ∈ B, x.userId ≠ uid) →
       WithdrawWalletBalanceByUserID noFaults db now userID amountMinor chainID =
         ⟨.ok ⟨uid, w.balanceMinor - amountMinor, w.currency, now⟩,
          ⟨A ++ debit amountMinor now w :: B,
           db.ledger ++
             [⟨w.walletId, "withdrawal", -amountMinor,
               w.balanceMinor - amountMinor, none,
               if chainID ≠ "" then some chainID else none, now⟩]⟩,
          true⟩) ∧
    (∀ (f : DBFaults) (db : WalletDB) (now : Int) (userID : String)
       (amountMinor : Int) (chainID : String) (e : WithdrawErr),
       (WithdrawWalletBalanceByUserID f db now userID amountMinor chainID).result
           = .error e →
       (WithdrawWalletBalanceByUserID f db now userID amountMinor chainID).db = db) :=
  ⟨withdraw_success_run, withdraw_error_rollback⟩

def demoWalletRich : Wallet := ⟨1, demoUser, 1000, "IDR", 3, 0⟩

/-- Witness for C2: balance 1000, withdraw 100 (success appends one ledger
row), and a commit fault at the same inputs rolls back. -/
theorem withdrawal_ledger_atomicity_witness :
    (WithdrawWalletBalanceByUserID noFaults ⟨[demoWalletRich], []⟩ 7 demoUser 100 "chain-1" =
      ⟨.ok ⟨demoUser, 900, "IDR", 7⟩,
       ⟨[] ++ debit 100 7 demoWalletRich :: [],
        [] ++ [⟨1, "withdrawal", -100, 900, none,
          if ("chain-1" : String) ≠ "" then some "chain-1" else none, 7⟩]⟩,
       true⟩) ∧
    (WithdrawWalletBalanceByUserID ⟨false, false, false, false, true⟩
        ⟨[demoWalletRich], []⟩ 7 demoUser 100 "").db = ⟨[demoWalletRich], []⟩ := by
  constructor
  · exact withdrawal_ledger_atomicity.1 ⟨[demoWalletRich], []⟩ 7 demoUser demoUser
      100 "chain-1" [] [] demoWalletRich (by decide) (by decide) rfl rfl
      (by decide) (by decide) (by decide)
  · exact withdrawal_ledger_atomicity.2 ⟨false, false, false, false, true⟩
      ⟨[demoWalletRich], []⟩ 7 demoUser 100 ""
      (.txFailure "failed to commit transaction") rfl

/-! ## C6 -/

/-- **C6.** Withdraw preconditions fail fast with invalid-input errors:
an unparseable user id, or a non-positive amount, is rejected before any
transaction starts (`txBegan = false`) with the database untouched, and
the handler maps the invalid-amount error to HTTP 400. -/
theorem withdraw_preconditions_fail_fast :
    (∀ (f : DBFaults) (db : WalletDB) (now : Int) (userID : String)
       (amountMinor : Int) (chainID : String),
       uuidParse userID = none →
       WithdrawWalletBalanceByUserID f db now userID amountMinor chainID =
         ⟨.error .invalidUserID, db, false⟩) ∧
    (∀ (f : DBFaults) (db : WalletDB) (now : Int) (userID uid : String)
       (amountMinor : Int) (chainID : String),
       uuidParse userID = some uid →
       amountMinor ≤ 0 →
       WithdrawWalletBalanceByUserID f db now userID amountMinor chainID =
         ⟨.error .invalidAmount, db, false⟩) ∧
    (∀ (now : Int) (db : WalletDB) (req : WithdrawHTTPRequest),
       trimSpace req.userID ≠ "" →
       req.amountMinor ≤ 0 →
       (withdrawHandler now db req).1 =
         ⟨400, jsonError "amount_minor must be greater than 0", applicationJSON⟩) := by
  refine ⟨?_, ?_, ?_⟩
  · intro f db now userID amountMinor chainID huuid
    unfold WithdrawWalletBalanceByUserID
    simp [huuid]
  · intro f db now userID uid amountMinor chainID huuid hamt
    unfold WithdrawWalletBalanceByUserID
    simp [huuid, hamt]
  · intro now db req htrim hamt
    have huser : ¬(req.userID = "") := by
      intro h
      apply htrim
      rw [h]
      decide
    simp only [withdrawHandler, WithdrawBalance, if_neg huser, if_neg htrim,
      if_pos hamt]

/-- Witness for C6: an unparseable user id, amount 0, and the handler's
400 mapping, all at concrete inputs. -/
theorem withdraw_preconditions_fail_fast_witness :
    (WithdrawWalletBalanceByUserID noFaults ⟨[demoWalletRich], []⟩ 7 "not-a-uuid" 100 "" =
      ⟨.error .invalidUserID, ⟨[demoWalletRich], []⟩, false⟩) ∧
    (WithdrawWalletBalanceByUserID noFaults ⟨[demoWalletRich], []⟩ 7 demoUser 0 "" =
      ⟨.error .invalidAmount, ⟨[demoWalletRich], []⟩, false⟩) ∧
    ((withdrawHandler 7 ⟨[demoWalletRich], []⟩
        { userID := demoUser, idempotencyKey := "idem-1",
          rawBody := "x", amountMinor := 0 }).1 =
      ⟨400, jsonError "amount_minor must be greater than 0", applicationJSON⟩) :=
  ⟨withdraw_preconditions_fail_fast.1 noFaults ⟨[demoWalletRich], []⟩ 7
      "not-a-uuid" 100 "" (by decide),
   withdraw_preconditions_fail_fast.2.1 noFaults ⟨[demoWalletRich], []⟩ 7
      demoUser demoUser 0 "" (by decide) (by decide),
   withdraw_preconditions_fail_fast.2.2 7 ⟨[demoWalletRich], []⟩
      { userID := demoUser, idempotencyKey := "idem-1",
        rawBody := "x", amountMinor := 0 } (by decide) (by decide)⟩

/-! ## C3 -/

/-- **C3.** Idempotency replay law. (i) `Acquire` on an existing
(scope, key) record with matching hash and status `completed` returns a
`Replay` decision carrying the stored status code, body and content type
verbatim, without mutating the store. (ii) End to end: a request whose
(scope, key) is fresh executes the withdrawal once (one new ledger entry);
resubmitting the identical request afterwards returns a byte-identical
response and leaves the entire state — idempotency records, wallets and
ledger — unchanged, so the protected operation is not re-executed. -/
theorem idempotency_replay_law :
    (∀ (now : Int) (db : List IdemRow) (request : IdemRequest) (row : IdemRow),
       trimSpace request.scope ≠ "" →
       trimSpace request.key ≠ "" →
       trimSpace request.requestHash ≠ "" →
       findIdemRow db (trimSpace request.scope) (trimSpace request.key) = some row →
       row.requestHash = trimSpace request.requestHash →
       row.status = "completed" →
       Acquire now db request =
         .ok ({ type := .replay, statusCode := row.responseStatus.getD 0,
                body := row.responseBody,
                contentType := row.responseType.getD "" }, db)) ∧
    (∀ (hashFn : String → String) (now₁ now₂ : Int) (st : SysState)
       (req : WithdrawHTTPRequest) (uid : String) (A B : List Wallet) (w : Wallet),
       trimSpace req.userID ≠ "" →
       trimSpace req.idempotencyKey ≠ "" →
       trimSpace (pipelineIdemRequest hashFn req).scope ≠ "" →
       trimSpace (pipelineIdemRequest hashFn req).key ≠ "" →
       trimSpace (pipelineIdemRequest hashFn req).requestHash ≠ "" →
       findIdemRow st.idem (trimSpace (pipelineIdemRequest hashFn req).scope)
         (trimSpace (pipelineIdemRequest hashFn req).key) = none →
       uuidParse req.userID = some uid →
       0 < req.amountMinor →
       st.walletDB.wallets = A ++ w :: B →
       w.userId = uid →
       req.amountMinor ≤ w.balanceMinor →
       (∀ x ∈ A, x.userId ≠ uid) →
       (∀ x ∈ B, x.userId ≠ uid) →
       (withdrawPipeline hashFn now₁ st req).1.status = 200 ∧
       (withdrawPipeline hashFn now₁ st req).2.walletDB.ledger =
         st.walletDB.ledger ++
           [⟨w.walletId, "withdrawal", -req.amountMinor,
             w.balanceMinor - req.amountMinor, none,
             if req.chainID ≠ "" then some req.chainID else none, now₁⟩] ∧
       (withdrawPipeline hashFn now₂ (withdrawPipeline hashFn now₁ st req).2 req).1 =
         (withdrawPipeline hashFn now₁ st req).1 ∧
       (withdrawPipeline hashFn now₂ (withdrawPipeline hashFn now₁ st req).2 req).2 =
         (withdrawPipeline hashFn now₁ st req).2) := by
  constructor
  · exact acquireReplayEq
  · intro hashFn now₁ now₂ st req uid A B w huser hkeyMW hscopeA hkeyA hhashA
      hfind huuid hamt hsplit hw hbal hA hB
    have hct : trimSpace applicationJSON = applicationJSON := by decide
    have hhandler := withdrawHandler_success_run now₁ st.walletDB req uid A B w
      huser huuid hamt hsplit hw hbal hA hB
    have h1 := middlewareFreshEq hashFn now₁ (withdrawHandler now₁) st req
      huser hkeyMW hscopeA hkeyA hhashA hfind
    rw [hhandler] at h1
    have hpair : ∀ r ∈ st.idem,
        (r.scope == trimSpace (pipelineIdemRequest hashFn req).scope &&
         r.key == trimSpace (pipelineIdemRequest hashFn req).key) = false := by
      intro r hr
      simpa using List.find?_eq_none.mp hfind r hr
    -- the record as stored after the first call
    have hfind2 : findIdemRow
        (st.idem ++ [completedRow
          ⟨200, renderWalletWithdrawal
              ⟨uid, req.amountMinor, w.balanceMinor - req.amountMinor,
               w.currency, req.chainID, now₁⟩, applicationJSON⟩ now₁
          (freshIdemRow (trimSpace (pipelineIdemRequest hashFn req).scope)
            (trimSpace (pipelineIdemRequest hashFn req).key)
            (trimSpace (pipelineIdemRequest hashFn req).requestHash)
            now₁ (now₁ + defaultLockTTL))])
        (trimSpace (pipelineIdemRequest hashFn req).scope)
        (trimSpace (pipelineIdemRequest hashFn req).key) =
        some (completedRow
          ⟨200, renderWalletWithdrawal
              ⟨uid, req.amountMinor, w.balanceMinor - req.amountMinor,
               w.currency, req.chainID, now₁⟩, applicationJSON⟩ now₁
          (freshIdemRow (trimSpace (pipelineIdemRequest hashFn req).scope)
            (trimSpace (pipelineIdemRequest hashFn req).key)
            (trimSpace (pipelineIdemRequest hashFn req).requestHash)
            now₁ (now₁ + defaultLockTTL))) := by
      unfold findIdemRow
      rw [find?_append_of_none _ _ _ hpair]
      rw [List.find?_cons_of_pos _ (by simp [completedRow, freshIdemRow])]
    have h2 := middlewareReplayEq hashFn now₂ (withdrawHandler now₂)
      ⟨st.idem ++ [completedRow
          ⟨200, renderWalletWithdrawal
              ⟨uid, req.amountMinor, w.balanceMinor - req.amountMinor,
               w.currency, req.chainID, now₁⟩, applicationJSON⟩ now₁
          (freshIdemRow (trimSpace (pipelineIdemRequest hashFn req).scope)
            (trimSpace (pipelineIdemRequest hashFn req).key)
            (trimSpace (pipelineIdemRequest hashFn req).requestHash)
            now₁ (now₁ + defaultLockTTL))],
        ⟨A ++ debit req.amountMinor now₁ w :: B,
         st.walletDB.ledger ++
           [⟨w.walletId, "withdrawal", -req.amountMinor,
             w.balanceMinor - req.amountMinor, none,
             if req.chainID ≠ "" then some req.chainID else none, now₁⟩]⟩⟩
      req _ huser hkeyMW hscopeA hkeyA hhashA hfind2
      (by simp [completedRow, freshIdemRow]) (by simp [completedRow])
    unfold withdrawPipeline
    rw [h1]
    dsimp only
    rw [h2]
    refine ⟨rfl, rfl, ?_, rfl⟩
    simp [completedRow, freshIdemRow, hct]

def demoHashFn : String → String := fun _ => "h"

def demoReq : WithdrawHTTPRequest :=
  { userID := demoUser, idempotencyKey := "idem-1",
    rawBody := "\x7b\"amount_minor\":100\x7d", amountMinor := 100 }

def demoIdemRow : IdemRow :=
  { scope := "withdraw:u1", key := "idem-1", requestHash := "h1",
    status := "completed", responseStatus := some 202,
    responseBody := "\x7b\"status\":\"replay\"\x7d",
    responseType := some "application/json", lockedUntil := 50,
    createdAt := 10, updatedAt := 50, completedAt := some 50 }

/-- Witness for C3: a stored completed record is replayed verbatim by
`Acquire`, and the two-call pipeline scenario at concrete inputs. -/
theorem idempotency_replay_law_witness :
    (Acquire 100 [demoIdemRow]
        { scope := "withdraw:u1", key := "idem-1", requestHash := "h1" } =
      .ok ({ type := .replay, statusCode := 202,
             body := "\x7b\"status\":\"replay\"\x7d",
             contentType := "application/json" }, [demoIdemRow])) ∧
    (withdrawPipeline demoHashFn 9
        (withdrawPipeline demoHashFn 7 ⟨[], ⟨[demoWalletRich], []⟩⟩ demoReq).2 demoReq).1 =
      (withdrawPipeline demoHashFn 7 ⟨[], ⟨[demoWalletRich], []⟩⟩ demoReq).1 ∧
    (withdrawPipeline demoHashFn 7 ⟨[], ⟨[demoWalletRich], []⟩⟩ demoReq).2.walletDB.ledger.length = 1 := by
  have ha := idempotency_replay_law.1 100 [demoIdemRow]
    { scope := "withdraw:u1", key := "idem-1", requestHash := "h1" } demoIdemRow
    (by decide) (by decide) (by decide) (by decide) (by decide) (by decide)
  have hb := idempotency_replay_law.2 demoHashFn 7 9 ⟨[], ⟨[demoWalletRich], []⟩⟩
    demoReq demoUser [] [] demoWalletRich
    (by decide) (by decide) (by decide) (by decide) (by decide) (by decide)
    (by decide) (by decide) rfl rfl (by decide) (by decide) (by decide)
  exact ⟨ha, hb.2.2.1, by rw [hb.2.1]; rfl⟩

/-! ## C4 -/

/-- **C4.** Idempotency conflict law: an existing (scope, key) record
whose stored hash differs from the supplied hash makes `Acquire` return
`Conflict` without mutating the record, and the middleware rejects the
request with HTTP 409 leaving the whole state (hence the ledger)
untouched. -/
theorem idempotency_conflict_law :
    (∀ (now : Int) (db : List IdemRow) (request : IdemRequest) (row : IdemRow),
       trimSpace request.scope ≠ "" →
       trimSpace request.key ≠ "" →
       trimSpace request.requestHash ≠ "" →
       findIdemRow db (trimSpace request.scope) (trimSpace request.key) = some row →
       row.requestHash ≠ trimSpace request.requestHash →
       Acquire now db request = .ok ({ type := .conflict }, db)) ∧
    (∀ (hashFn : String → String) (now : Int) (st : SysState)
       (req : WithdrawHTTPRequest) (row : IdemRow),
       trimSpace req.userID ≠ "" →
       trimSpace req.idempotencyKey ≠ "" →
       trimSpace (pipelineIdemRequest hashFn req).scope ≠ "" →
       trimSpace (pipelineIdemRequest hashFn req).key ≠ "" →
       trimSpace (pipelineIdemRequest hashFn req).requestHash ≠ "" →
       findIdemRow st.idem (trimSpace (pipelineIdemRequest hashFn req).scope)
         (trimSpace (pipelineIdemRequest hashFn req).key) = some row →
       row.requestHash ≠ trimSpace (pipelineIdemRequest hashFn req).requestHash →
       withdrawPipeline hashFn now st req =
         (⟨409, jsonError "idempotency key reused with different payload",
           applicationJSON⟩, st)) := by
  constructor
  · exact acquireConflictEq
  · intro hashFn now st req row huser hkeyMW hscopeA hkeyA hhashA hfind hdiff
    unfold withdrawPipeline
    exact middlewareConflictEq hashFn now (withdrawHandler now) st req row
      huser hkeyMW hscopeA hkeyA hhashA hfind hdiff

def demoConflictRow : IdemRow :=
  { scope := "withdraw:" ++ demoUser, key := "idem-1", requestHash := "zzz",
    status := "completed", responseStatus := some 200, responseBody := "",
    responseType := none, lockedUntil := 0, createdAt := 0, updatedAt := 0,
    completedAt := none }

/-- Witness for C4 at a stored record whose hash differs from the one the
request computes. -/
theorem idempotency_conflict_law_witness :
    (Acquire 100 [demoConflictRow]
        { scope := "withdraw:" ++ demoUser, key := "idem-1", requestHash := "h1" } =
      .ok ({ type := .conflict }, [demoConflictRow])) ∧
    withdrawPipeline demoHashFn 7 ⟨[demoConflictRow], ⟨[demoWalletRich], []⟩⟩ demoReq =
      (⟨409, jsonError "idempotency key reused with different payload",
        applicationJSON⟩, ⟨[demoConflictRow], ⟨[demoWalletRich], []⟩⟩) :=
  ⟨idempotency_conflict_law.1 100 [demoConflictRow]
      { scope := "withdraw:" ++ demoUser, key := "idem-1", requestHash := "h1" }
      demoConflictRow (by decide) (by decide) (by decide) (by decide) (by decide),
   idempotency_conflict_law.2 demoHashFn 7 ⟨[demoConflictRow], ⟨[demoWalletRich], []⟩⟩
      demoReq demoConflictRow (by decide) (by decide) (by decide) (by decide)
      (by decide) (by decide) (by decide)⟩

/-! ## C5 -/

/-- **C5.** In-progress arbitration: with a matching hash and status
`in_progress`, a lock strictly in the future makes `Acquire` return
`InProgress` without mutating the record, while an expired lock makes it
re-mark the record `in_progress` with `locked_until = now + lockTTL`
(the request's TTL, or the default when non-positive) and return
`Acquired`. -/
theorem idempotency_in_progress_arbitration :
    (∀ (now : Int) (db : List IdemRow) (request : IdemRequest) (row : IdemRow),
       trimSpace request.scope ≠ "" →
       trimSpace request.key ≠ "" →
       trimSpace request.requestHash ≠ "" →
       findIdemRow db (trimSpace request.scope) (trimSpace request.key) = some row →
       row.requestHash = trimSpace request.requestHash →
       row.status = "in_progress" →
       now < row.lockedUntil →
       Acquire now db request = .ok ({ type := .inProgress }, db)) ∧
    (∀ (now : Int) (db : List IdemRow) (request : IdemRequest) (row : IdemRow),
       trimSpace request.scope ≠ "" →
       trimSpace request.key ≠ "" →
       trimSpace request.requestHash ≠ "" →
       findIdemRow db (trimSpace request.scope) (trimSpace request.key) = some row →
       row.requestHash = trimSpace request.requestHash →
       row.status = "in_progress" →
       row.lockedUntil ≤ now →
       Acquire now db request =
         .ok ({ type := .acquired },
              reacquireUpdate (trimSpace request.scope) (trimSpace request.key) now
                (now + (if request.lockTTL ≤ 0 then defaultLockTTL
                        else request.lockTTL)) db)) :=
  ⟨acquireInProgressEq, acquireReacquireEq⟩

def demoInProgressRow : IdemRow :=
  { scope := "withdraw:u1", key := "idem-1", requestHash := "h1",
    status := "in_progress", responseStatus := none, responseBody := "",
    responseType := none, lockedUntil := 1000, createdAt := 0, updatedAt := 0,
    completedAt := none }

/-- Witness for C5: the same in-progress record observed before and after
its lock expiry. -/
theorem idempotency_in_progress_arbitration_witness :
    (Acquire 500 [demoInProgressRow]
        { scope := "withdraw:u1", key := "idem-1", requestHash := "h1" } =
      .ok ({ type := .inProgress }, [demoInProgressRow])) ∧
    (Acquire 2000 [demoInProgressRow]
        { scope := "withdraw:u1", key := "idem-1", requestHash := "h1",
          lockTTL := 7 } =
      .ok ({ type := .acquired },
           reacquireUpdate "withdraw:u1" "idem-1" 2000 (2000 + 7)
             [demoInProgressRow])) := by
  constructor
  · exact idempotency_in_progress_arbitration.1 500 [demoInProgressRow]
      { scope := "withdraw:u1", key := "idem-1", requestHash := "h1" }
      demoInProgressRow (by decide) (by decide) (by decide) (by decide)
      (by decide) (by decide) (by decide)
  · have h := idempotency_in_progress_arbitration.2 2000 [demoInProgressRow]
      { scope := "withdraw:u1", key := "idem-1", requestHash := "h1",
        lockTTL := 7 }
      demoInProgressRow (by decide) (by decide) (by decide) (by decide)
      (by decide) (by decide) (by decide)
    simpa using h

/-! ## C9 -/

/-- **C9.** A non-positive `LockTTL` is silently replaced by the default
30-second lock TTL when computing `locked_until` — on both the fresh
insert and the expired-lock reacquisition — so the request is neither
rejected nor granted an already-expired lock. -/
theorem acquire_default_lock_ttl :
    defaultLockTTL = 30 * 1000000000 ∧
    (∀ (now : Int) (db : List IdemRow) (request : IdemRequest),
       request.lockTTL ≤ 0 →
       trimSpace request.scope ≠ "" →
       trimSpace request.key ≠ "" →
       trimSpace request.requestHash ≠ "" →
       findIdemRow db (trimSpace request.scope) (trimSpace request.key) = none →
       Acquire now db request =
         .ok ({ type := .acquired },
              db ++ [freshIdemRow (trimSpace request.scope)
                (trimSpace request.key) (trimSpace request.requestHash)
                now (now + defaultLockTTL)]) ∧
       now < now + defaultLockTTL) ∧
    (∀ (now : Int) (db : List IdemRow) (request : IdemRequest) (row : IdemRow),
       request.lockTTL ≤ 0 →
       trimSpace request.scope ≠ "" →
       trimSpace request.key ≠ "" →
       trimSpace request.requestHash ≠ "" →
       findIdemRow db (trimSpace request.scope) (trimSpace request.key) = some row →
       row.requestHash = trimSpace request.requestHash →
       row.status = "in_progress" →
       row.lockedUntil ≤ now →
       Acquire now db request =
         .ok ({ type := .acquired },
              reacquireUpdate (trimSpace request.scope) (trimSpace request.key)
                now (now + defaultLockTTL) db)) := by
  have hpos : defaultLockTTL = 30 * 1000000000 := rfl
  refine ⟨hpos, ?_, ?_⟩
  · intro now db request httl hscope hkey hhash hfind
    have h := acquireFreshEq now db request hscope hkey hhash hfind
    rw [if_pos httl] at h
    exact ⟨h, by omega⟩
  · intro now db request row httl hscope hkey hhash hfind hrowhash hstatus hlock
    have h := acquireReacquireEq now db request row hscope hkey hhash hfind
      hrowhash hstatus hlock
    rwa [if_pos httl] at h

/-- Witness for C9: a zero-TTL request acquires with `locked_until` thirty
seconds (in nanoseconds) ahead, fresh and after lock expiry. -/
theorem acquire_default_lock_ttl_witness :
    (Acquire 100 [] { scope := "s", key := "k", requestHash := "h1" } =
      .ok ({ type := .acquired },
           [freshIdemRow "s" "k" "h1" 100 (100 + defaultLockTTL)]) ∧
     (100 : Int) < 100 + defaultLockTTL) ∧
    (Acquire 2000 [demoInProgressRow]
        { scope := "withdraw:u1", key := "idem-1", requestHash := "h1",
          lockTTL := -3 } =
      .ok ({ type := .acquired },
           reacquireUpdate "withdraw:u1" "idem-1" 2000 (2000 + defaultLockTTL)
             [demoInProgressRow])) := by
  constructor
  · have h := acquire_default_lock_ttl.2.1 100 []
      { scope := "s", key := "k", requestHash := "h1" }
      (by decide) (by decide) (by decide) (by decide) (by decide)
    simpa using h
  · have h := acquire_default_lock_ttl.2.2 2000 [demoInProgressRow]
      { scope := "withdraw:u1", key := "idem-1", requestHash := "h1",
        lockTTL := -3 }
      demoInProgressRow (by decide) (by decide) (by decide) (by decide)
      (by decide) (by decide) (by decide) (by decide)
    simpa using h

/-! ## C10 -/

/-- **C10.** When a replayed record's stored status code is NULL or not
positive, the middleware serves the replay with HTTP status 200 while the
stored body bytes and content type are replayed as stored. -/
theorem replay_status_fallback_200 :
    ∀ (hashFn : String → String) (now : Int)
      (handler : WalletDB → WithdrawHTTPRequest → HTTPResponse × WalletDB)
      (st : SysState) (req : WithdrawHTTPRequest) (row : IdemRow),
      trimSpace req.userID ≠ "" →
      trimSpace req.idempotencyKey ≠ "" →
      trimSpace (pipelineIdemRequest hashFn req).scope ≠ "" →
      trimSpace (pipelineIdemRequest hashFn req).key ≠ "" →
      trimSpace (pipelineIdemRequest hashFn req).requestHash ≠ "" →
      findIdemRow st.idem (trimSpace (pipelineIdemRequest hashFn req).scope)
        (trimSpace (pipelineIdemRequest hashFn req).key) = some row →
      row.requestHash = trimSpace (pipelineIdemRequest hashFn req).requestHash →
      row.status = "completed" →
      row.responseStatus.getD 0 ≤ 0 →
      withdrawIdempotencyMiddleware hashFn now handler st req =
        (⟨200, row.responseBody, row.responseType.getD ""⟩, st) := by
  intro hashFn now handler st req row huser hkeyMW hscopeA hkeyA hhashA hfind
    hrowhash hstatus hnp
  rw [middlewareReplayEq hashFn now handler st req row huser hkeyMW hscopeA
    hkeyA hhashA hfind hrowhash hstatus, if_pos hnp]

def demoNullStatusRow : IdemRow :=
  { scope := "withdraw:" ++ demoUser, key := "idem-1", requestHash := "h",
    status := "completed", responseStatus := none,
    responseBody := "\x7b\"ok\":true\x7d", responseType := some "text/plain",
    lockedUntil := 0, createdAt := 0, updatedAt := 0, completedAt := some 0 }

/-- Witness for C10 at a stored record with a NULL status code. -/
theorem replay_status_fallback_200_witness :
    withdrawIdempotencyMiddleware demoHashFn 7 (fun db _ => (⟨500, "", ""⟩, db))
        ⟨[demoNullStatusRow], ⟨[demoWalletRich], []⟩⟩ demoReq =
      (⟨200, "\x7b\"ok\":true\x7d", "text/plain"⟩,
       ⟨[demoNullStatusRow], ⟨[demoWalletRich], []⟩⟩) := by
  have h := replay_status_fallback_200 demoHashFn 7 (fun db _ => (⟨500, "", ""⟩, db))
    ⟨[demoNullStatusRow], ⟨[demoWalletRich], []⟩⟩ demoReq demoNullStatusRow
    (by decide) (by decide) (by decide) (by decide) (by decide) (by decide)
    (by decide) (by decide) (by decide)
  simpa using h

/-! ## Rate-limit lemmas and C7 -/

theorem retryAfterSec_ge_one (ms : Int) : 1 ≤ rateLimitRetryAfterSeconds ms := by
  unfold rateLimitRetryAfterSeconds
  dsimp only
  split
  · omega
  · omega

/-- Requests hitting a live fixed-window counter within its expiry neither
re-arm the window nor reset the count: each just increments, and stays
allowed while the count is within the limit. -/
theorem fixedWindowRun_within (w l E : Int) :
    ∀ (ts : List Int) (c : Int), 1 ≤ c → c + (ts.length : Int) ≤ l →
      (∀ t ∈ ts, t < E) →
      (∀ r ∈ (fixedWindowRun (some ⟨c, E⟩) ts w l).1, r.allowed = true) ∧
      (fixedWindowRun (some ⟨c, E⟩) ts w l).2 = some ⟨c + (ts.length : Int), E⟩ := by
  intro ts
  induction ts with
  | nil =>
    intro c hc hle hin
    constructor
    · intro r hr
      simp [fixedWindowRun] at hr
    · simp [fixedWindowRun]
  | cons t ts ih =>
    intro c hc hle hin
    have ht : t < E := hin t (List.mem_cons_self t ts)
    have hcur : ¬(c + 1 = 1) := by omega
    have hall : c + 1 ≤ l := by
      have hlen : ((t :: ts).length : Int) = (ts.length : Int) + 1 := by
        rw [List.length_cons]
        push_cast
        ring
      rw [hlen] at hle
      have : (0 : Int) ≤ (ts.length : Int) := Int.ofNat_nonneg _
      omega
    have hstep2 : (fixedWindow (some ⟨c, E⟩) t w l).2 = some ⟨c + 1, E⟩ := by
      simp [fixedWindow, ht, hcur]
    have hstep1 : (fixedWindow (some ⟨c, E⟩) t w l).1.allowed = true := by
      simp only [fixedWindow, ht, if_true, hcur]
      simp [hall]
    have hrec := ih (c + 1) (by omega)
      (by
        have hlen : ((t :: ts).length : Int) = (ts.length : Int) + 1 := by
          rw [List.length_cons]
          push_cast
          ring
        rw [hlen] at hle
        omega)
      (fun x hx => hin x (List.mem_cons_of_mem t hx))
    constructor
    · intro r hr
      simp only [fixedWindowRun] at hr
      rw [hstep2] at hr
      rcases List.mem_cons.mp hr with rfl | hr2
      · exact hstep1
      · exact hrec.1 r hr2
    · have hlen : c + 1 + (ts.length : Int) = c + ((t :: ts).length : Int) := by
        rw [List.length_cons]
        push_cast
        ring
      simp only [fixedWindowRun]
      rw [hstep2, hrec.2, hlen]

/-- **C7.** Fixed-window boundary: starting from an empty window, the
first `limit` requests within one window are all allowed, and the
(limit+1)th request in the same window is denied with a positive
retry-after; the middleware answers the denial with HTTP 429, a
`Retry-After` header of at least one second, and the JSON body
`{"error":"rate limit exceeded","retry_after":<seconds>}`, returning
immediately rather than blocking or retrying. -/
theorem rate_limit_boundary :
    ∀ (n : Nat) (w t0 tlast : Int) (ts : List Int),
      1 ≤ n → 0 < w → ts.length + 1 = n →
      (∀ t ∈ ts, t < t0 + w) → tlast < t0 + w →
      (∀ r ∈ (fixedWindowRun none (t0 :: ts) w (n : Int)).1, r.allowed = true) ∧
      (fixedWindow (fixedWindowRun none (t0 :: ts) w (n : Int)).2 tlast w (n : Int)).1.allowed = false ∧
      (fixedWindow (fixedWindowRun none (t0 :: ts) w (n : Int)).2 tlast w (n : Int)).1.retryAfterMs =
        t0 + w - tlast ∧
      0 < (fixedWindow (fixedWindowRun none (t0 :: ts) w (n : Int)).2 tlast w (n : Int)).1.retryAfterMs ∧
      rateLimitMiddlewareStep
          (fixedWindow (fixedWindowRun none (t0 :: ts) w (n : Int)).2 tlast w (n : Int)).1 =
        some { status := 429,
               retryAfterHeader := rateLimitRetryAfterSeconds (t0 + w - tlast),
               body := rateLimitExceededBody (rateLimitRetryAfterSeconds (t0 + w - tlast)) } ∧
      1 ≤ rateLimitRetryAfterSeconds (t0 + w - tlast) := by
  intro n w t0 tlast ts hn hw hlen hin hlast
  have hn1 : (1 : Int) ≤ (n : Int) := by exact_mod_cast hn
  have hstep0_2 : (fixedWindow none t0 w (n : Int)).2 = some ⟨1, t0 + w⟩ := by
    simp [fixedWindow]
  have hstep0_1 : (fixedWindow none t0 w (n : Int)).1.allowed = true := by
    simp [fixedWindow, hn1]
  have hrun := fixedWindowRun_within w (n : Int) (t0 + w) ts 1 le_rfl
    (by
      have : ((ts.length : Int) + 1) = (n : Int) := by exact_mod_cast hlen
      omega)
    hin
  have hfin : (fixedWindowRun none (t0 :: ts) w (n : Int)).2 = some ⟨(n : Int), t0 + w⟩ := by
    simp only [fixedWindowRun]
    rw [hstep0_2, hrun.2]
    have hc : ((ts.length : Int)) + 1 = (n : Int) := by exact_mod_cast hlen
    have hc2 : 1 + (ts.length : Int) = (n : Int) := by omega
    rw [hc2]
  have hncur : ¬((n : Int) + 1 = 1) := by omega
  have hdeny : ¬((n : Int) + 1 ≤ (n : Int)) := by omega
  have hlastres : (fixedWindow (fixedWindowRun none (t0 :: ts) w (n : Int)).2 tlast w (n : Int)).1 =
      { allowed := false, limit := (n : Int), remaining := 0,
        resetAtMs := tlast + (t0 + w - tlast),
        retryAfterMs := t0 + w - tlast } := by
    rw [hfin]
    simp [fixedWindow, hlast, hncur, hdeny]
  refine ⟨?_, ?_, ?_, ?_, ?_, retryAfterSec_ge_one _⟩
  · intro r hr
    simp only [fixedWindowRun] at hr
    rw [hstep0_2] at hr
    rcases List.mem_cons.mp hr with rfl | hr2
    · exact hstep0_1
    · exact hrun.1 r hr2
  · rw [hlastres]
  · rw [hlastres]
  · rw [hlastres]
    dsimp only
    omega
  · rw [hlastres]
    unfold rateLimitMiddlewareStep
    simp

/-- Witness for C7 at limit 3, window 1000 ms, four requests at
0, 10, 20 and 30 ms. -/
theorem rate_limit_boundary_witness :
    ((fixedWindowRun none [0, 10, 20] 1000 ((3 : Nat) : Int)).1.map RLResult.allowed =
      [true, true, true]) ∧
    (fixedWindow (fixedWindowRun none [0, 10, 20] 1000 ((3 : Nat) : Int)).2 30 1000
      ((3 : Nat) : Int)).1.allowed = false ∧
    0 < (fixedWindow (fixedWindowRun none [0, 10, 20] 1000 ((3 : Nat) : Int)).2 30 1000
      ((3 : Nat) : Int)).1.retryAfterMs ∧
    rateLimitMiddlewareStep
        (fixedWindow (fixedWindowRun none [0, 10, 20] 1000 ((3 : Nat) : Int)).2 30 1000
          ((3 : Nat) : Int)).1 =
      some { status := 429, retryAfterHeader := 1,
             body := rateLimitExceededBody 1 } := by
  have h := rate_limit_boundary 3 1000 0 30 [10, 20] (by decide) (by decide)
    (by decide) (by decide) (by decide)
  refine ⟨by decide, h.2.1, h.2.2.2.1, ?_⟩
  rw [h.2.2.2.2.1]
  decide

/-! ## C8 -/

/-- **C8 counterexample (claim as stated is false for the hashing
selector).** `hash.New` on the unrecognized strategy string "argon2"
returns an error instead of a fixed default variant. -/
theorem hash_selection_errors_on_unknown :
    hashNew { strategy := "argon2", cost := 0 } =
      .error "hash: unknown strategy" := rfl

/-- **C8 (amended).** The rate-limit algorithm selectors are total with a
deterministic token-bucket default on every unrecognized configuration
string — both `parseRateLimitAlgorithm` and the store's `Allow` dispatch —
while the hashing strategy constructor `hash.New` instead returns an error
for every strategy other than "bcrypt". -/
theorem algorithm_selection_defaults :
    (∀ v : String,
       trimSpace (toLowerStr v) ≠ "sliding_window" →
       trimSpace (toLowerStr v) ≠ "fixed_window" →
       parseRateLimitAlgorithm v = .tokenBucket) ∧
    (∀ a : String,
       a ≠ "token_bucket" → a ≠ "sliding_window" → a ≠ "fixed_window" →
       allowDispatch a = .tokenBucket) ∧
    (∀ opts : HashOptions, opts.strategy ≠ "bcrypt" →
       hashNew opts = .error "hash: unknown strategy") := by
  refine ⟨?_, ?_, ?_⟩
  · intro v h1 h2
    unfold parseRateLimitAlgorithm
    simp only [if_neg h1, if_neg h2]
  · intro a h1 h2 h3
    unfold allowDispatch
    simp only [if_neg h1, if_neg h2, if_neg h3]
  · intro opts h
    unfold hashNew
    simp only [if_neg h]

/-- Witness for C8 (amended) at concrete unrecognized strings. -/
theorem algorithm_selection_defaults_witness :
    parseRateLimitAlgorithm "  LeAkY_BuCkEt " = .tokenBucket ∧
    allowDispatch "leaky_bucket" = .tokenBucket ∧
    hashNew { strategy := "scrypt", cost := 12 } =
      .error "hash: unknown strategy" :=
  ⟨algorithm_selection_defaults.1 "  LeAkY_BuCkEt " (by decide) (by decide),
   algorithm_selection_defaults.2.1 "leaky_bucket" (by decide) (by decide) (by decide),
   algorithm_selection_defaults.2.2 { strategy := "scrypt", cost := 12 } (by decide)⟩

end WithdrawAPI
